import Mathlib

/-!
Shallow embedding of `ResilientWebSocket` (src/unnamed/part_001): a client
WebSocket wrapper with reconnection and ping/pong keepalive.

The embedding has two layers:

* a callback-registry model (`CallbackRegistry`) of the `callbacks` map and
  the methods `on`, `off`, `respondToCallbacks`, faithful to JavaScript
  `Map`/`Set` semantics including live iteration of `Set.forEach` under
  re-entrant mutation;
* a timed operational model (`ResilientWebSocket`) of the class: explicit
  state with the current socket handle, the pending `setTimeout` timers
  (ping, pong-timeout, reconnect), the per-socket event-listener
  registrations, and an observable effect trace (factory invocations,
  transport `send`/`close` calls, event emissions, faults).  Notification
  delivery is recorded as a trace effect; the registry semantics live in
  the first layer.  Time advancement (`tick`) runs due timers in due-time
  order (ties in scheduling order), as the test clock does.

Traces are newest-first lists (`::` prepends the latest effect).
A `fault` effect records a thrown `TypeError` from dereferencing an absent
socket handle (`this.socket` when no connection was ever assigned); the
method aborts at that point, keeping the effects already performed.
JSON encoding/decoding of payloads is an external collaborator (spec §1)
and is abstracted: `jsonStringify` is a stand-in rendering, and inbound
`MESSAGE` delivery records the raw wire payload.
-/

/-- A wire/application payload: JavaScript `string | object`.  A structured
payload is identified by its object reference `ref`; object content lives
in a heap `Nat → Nat` passed explicitly where content equality matters. -/
inductive Payload
  | text (s : String)
  | structured (ref : Nat)
deriving DecidableEq

/-- JavaScript strict equality `===` on payloads: string equality for
strings, reference identity for objects, `false` across variants.
This is the comparison `event.data === this.options.pongMessage` uses. -/
def jsStrictEq : Payload → Payload → Bool
  | .text s, .text t => s == t
  | .structured r, .structured q => r == q
  | _, _ => false

/-- Modelled from the spec: value equality on the tagged payload variant —
"same variant and same content", with structured content read from the
heap.  This is the spec's notion the code's `===` is compared against. -/
def payloadValueEq (heap : Nat → Nat) : Payload → Payload → Bool
  | .text s, .text t => s == t
  | .structured r, .structured q => heap r == heap q
  | _, _ => false

/-- The resolved options record (caller overlay onto `defaultOptions` is
already applied; all fields present, as in `{ ...defaultOptions, ...options }`). -/
structure Options where
  autoJsonify : Bool
  autoConnect : Bool
  reconnectInterval : Nat
  pingEnabled : Bool
  pingInterval : Nat
  pongTimeout : Nat
  pingMessage : Payload
  pongMessage : Payload
  reconnectOnError : Bool
deriving DecidableEq

/-- The `defaultOptions` value from the source. -/
def defaultOptions : Options where
  autoJsonify := false
  autoConnect := true
  reconnectInterval := 1000
  pingEnabled := false
  pingInterval := 10000
  pongTimeout := 5000
  pingMessage := .text "PING"
  pongMessage := .text "PONG"
  reconnectOnError := true

/-- The `WebSocketEvent` enum. -/
inductive WsEvent
  | CONNECTION | MESSAGE | CONNECTING | CLOSE | PONG | ERROR
deriving DecidableEq

namespace CallbackRegistry

/-- Callback identity (JavaScript function reference). -/
abbrev Cb := Nat

/-- The `callbacks : Map<string, Set<OnCallback>>` field: insertion-ordered
association list of event name to insertion-ordered duplicate-free callback
list. -/
abbrev Registry := List (String × List Cb)

/-- Embeds `Map.get`. -/
def regGet : Registry → String → Option (List Cb)
  | [], _ => none
  | (e', l) :: R, e => if e' == e then some l else regGet R e

/-- Embeds `Map.set` (replace in place, or append a new key at the end). -/
def regSet : Registry → String → List Cb → Registry
  | [], e, l => [(e, l)]
  | (e', l') :: R, e, l =>
    if e' == e then (e', l) :: R else (e', l') :: regSet R e l

/-- The callback list registered for an event (empty when absent). -/
def regList (R : Registry) (e : String) : List Cb := (regGet R e).getD []

/-- Embeds `Set.add`: append unless already present (insertion order kept). -/
def setAdd (l : List Cb) (c : Cb) : List Cb := if l.contains c then l else l ++ [c]

/-- Embeds `on(event, callback)` (`on` is reserved in Lean, hence `onCb`):
get-or-create the set for the event, then add. -/
def onCb (R : Registry) (e : String) (c : Cb) : Registry :=
  match regGet R e with
  | none => regSet R e [c]
  | some l => regSet R e (setAdd l c)

/-- Embeds `off(event, callback)`: delete from the set when the set exists. -/
def off (R : Registry) (e : String) (c : Cb) : Registry :=
  match regGet R e with
  | none => R
  | some l => regSet R e (l.erase c)

/-- A registry operation a callback may perform re-entrantly while an
emission is in progress. -/
inductive RegOp
  | add (e : String) (c : Cb)
  | remove (e : String) (c : Cb)

/-- State of an in-progress `Set.forEach` over the set for one event:
`reg` holds the registry for the other events (the emitted event's entry
is patched back at the end), `entries` is the live entry list of the
iterated set with tombstones for deleted elements, `idx` the cursor, and
`trace` the callbacks invoked so far, in invocation order. -/
structure EmitSt where
  reg : Registry
  entries : List (Option Cb)
  idx : Nat
  trace : List Cb

/-- Embeds `Set.add` on the live entry list: append unless a live entry exists. -/
def entriesAdd (es : List (Option Cb)) (c : Cb) : List (Option Cb) :=
  if es.contains (some c) then es else es ++ [some c]

/-- Embeds `Set.delete` on the live entry list: tombstone every matching entry. -/
def entriesDelete (es : List (Option Cb)) (c : Cb) : List (Option Cb) :=
  es.map (fun x => if x == some c then none else x)

/-- Apply one re-entrant registry operation during emission of event `e`:
operations on `e` hit the live entry list being iterated, operations on
other events go through `on`/`off` on the registry. -/
def applyOp (e : String) (st : EmitSt) : RegOp → EmitSt
  | .add e' c =>
    if e' == e then { st with entries := entriesAdd st.entries c }
    else { st with reg := onCb st.reg e' c }
  | .remove e' c =>
    if e' == e then { st with entries := entriesDelete st.entries c }
    else { st with reg := off st.reg e' c }

/-- Run a callback's whole re-entrant program. -/
def applyOps (e : String) (st : EmitSt) (ops : List RegOp) : EmitSt :=
  ops.foldl (applyOp e) st

/-- Embeds `Set.forEach` live iteration: walk the entry list by cursor; a live
entry is invoked (recorded in `trace`) and its program applied, a
tombstone is skipped; entries appended during iteration are visited too.
`fuel` bounds the walk (a callback that keeps adding fresh callbacks makes
the JavaScript loop genuinely non-terminating). -/
def emitLoop (prog : Cb → List RegOp) (e : String) : Nat → EmitSt → EmitSt
  | 0, st => st
  | fuel + 1, st =>
    if h : st.idx < st.entries.length then
      match st.entries.get ⟨st.idx, h⟩ with
      | none => emitLoop prog e fuel { st with idx := st.idx + 1 }
      | some c =>
          emitLoop prog e fuel
            (applyOps e { st with trace := st.trace ++ [c], idx := st.idx + 1 } (prog c))
    else st

/-- Embeds `respondToCallbacks(event, data)`: when a set is registered for the
event, iterate it with `Set.forEach`; returns the registry after the
emission together with the list of invoked callbacks in invocation order. -/
def respondToCallbacks (prog : Cb → List RegOp) (R : Registry) (e : String)
    (fuel : Nat) : Registry × List Cb :=
  match regGet R e with
  | none => (R, [])
  | some l =>
    let st := emitLoop prog e fuel ⟨R, l.map some, 0, []⟩
    (regSet st.reg e (st.entries.filterMap id), st.trace)

end CallbackRegistry

namespace ResilientWebSocket

/-- A scheduled timer action: the three `setTimeout` closures of the class. -/
inductive TAct
  | pingFire
  | pongFire
  | reconnectFire
deriving DecidableEq

/-- A pending timer: identity (`setTimeout` return value), absolute due
time, and the closure to run. -/
structure Timer where
  id : Nat
  due : Nat
  act : TAct
deriving DecidableEq

/-- Which of the four class handlers are attached to one socket via
`addEventListener`. -/
structure Listeners where
  openEv : Bool
  messageEv : Bool
  closeEv : Bool
  errorEv : Bool
deriving DecidableEq

/-- All four handlers attached (after `connect`). -/
def allOn : Listeners := ⟨true, true, true, true⟩

/-- All four handlers removed (after `close`). -/
def allOff : Listeners := ⟨false, false, false, false⟩

/-- An externally observable effect, newest first in the trace. -/
inductive Effect
  | factoryCall (url : String) (sock : Nat)
  | emitEv (ev : WsEvent)
  | emitMessage (data : Payload)
  | socketSend (sock : Nat) (data : Payload)
  | socketClose (sock : Nat)
  | fault
deriving DecidableEq

/-- The wrapper state: options and url, the virtual clock, fresh-id
counters, the current socket handle (`this.socket`, `none` before any
assignment), the ids stored in the `pingTimeout`/`pongTimeout` fields,
the pending timers, the per-socket listener attachments, and the effect
trace. -/
structure RWS where
  opts : Options
  url : String
  time : Nat
  nextTimerId : Nat
  nextSockId : Nat
  socket : Option Nat
  pingTimeoutId : Option Nat
  pongTimeoutId : Option Nat
  timers : List Timer
  listeners : List (Nat × Listeners)
  trace : List Effect
deriving DecidableEq

/-- Listener attachments of one socket (all off when unknown). -/
def getListeners (k : Nat) : List (Nat × Listeners) → Listeners
  | [] => allOff
  | (k', v) :: L => if k' == k then v else getListeners k L

/-- Set one socket's listener attachments. -/
def setListeners (k : Nat) (v : Listeners) : List (Nat × Listeners) → List (Nat × Listeners)
  | [] => [(k, v)]
  | (k', v') :: L => if k' == k then (k, v) :: L else (k', v') :: setListeners k v L

/-- Embeds `clearTimeout`/`clearInterval` on a stored id, at the timer-list
level: cancel the pending timer with that id; a `none` field (never
assigned) is a no-op, as is clearing an id that already fired. -/
def clearT (oi : Option Nat) (ts : List Timer) : List Timer :=
  match oi with
  | none => ts
  | some i => ts.filter (fun t => t.id != i)

/-- Embeds `clearTimeout`/`clearInterval` on a stored id, as a state step. -/
def clearTimer (oi : Option Nat) (s : RWS) : RWS :=
  { s with timers := clearT oi s.timers }

/-- Embeds `respondToCallbacks` at machine level: record the emission in the
trace (subscriber iteration semantics are `CallbackRegistry`'s). -/
def respondToCallbacks (ev : WsEvent) (s : RWS) : RWS :=
  { s with trace := .emitEv ev :: s.trace }

/-- JSON.stringify, an external collaborator (spec §1 excludes payload
encoding); abstracted as a rendering of the payload. -/
def jsonStringify : Payload → String
  | .text s => String.append "json:" s
  | .structured r => String.append "jsonobj:" (toString r)

/-- Outbound encoding in `send`: `autoJsonify ? JSON.stringify(data) : data`. -/
def encodePayload (aj : Bool) (d : Payload) : Payload :=
  if aj then .text (jsonStringify d) else d

/-- Embeds `connect()`: invoke the factory with the configured url (a fresh socket
id), emit `CONNECTING`, attach the four handlers to the new socket, and
return it.  The method returns the socket without assigning `this.socket`;
the constructor and the reconnect timer do the assignment. -/
def connect (s : RWS) : RWS × Nat :=
  let k := s.nextSockId
  let s1 := { s with nextSockId := k + 1, trace := .factoryCall s.url k :: s.trace }
  let s2 := respondToCallbacks .CONNECTING s1
  ({ s2 with listeners := setListeners k allOn s2.listeners }, k)

/-- The constructor: store url and resolved options; when `autoConnect`,
`this.socket = this.connect()`. -/
def mkRWS (url : String) (opts : Options) : RWS :=
  let s0 : RWS :=
    { opts := opts, url := url, time := 0, nextTimerId := 0, nextSockId := 0,
      socket := none, pingTimeoutId := none, pongTimeoutId := none,
      timers := [], listeners := [], trace := [] }
  if opts.autoConnect then
    let p := connect s0
    { p.1 with socket := some p.2 }
  else s0

/-- Embeds `send(data)`: `this.socket.send(encoded data)`; with no socket handle
assigned this dereferences `undefined` and throws (a `fault` effect, no
send, no reported condition). -/
def send (data : Payload) (s : RWS) : RWS :=
  match s.socket with
  | none => { s with trace := .fault :: s.trace }
  | some k =>
    { s with trace := .socketSend k (encodePayload s.opts.autoJsonify data) :: s.trace }

/-- Embeds `close()`: clear the pong and ping timers, then detach the four
handlers from the current socket, call the transport's `close`, and emit
`CLOSE`.  With no socket handle the `removeEventListener` dereference
throws after the two clears (a `fault`).  Note: the reconnect timer id is
never stored in any field, so a pending reconnect is not cancelled here,
and the method has no guard against running twice. -/
def close (s : RWS) : RWS :=
  let s1 := clearTimer s.pongTimeoutId s
  let s2 := clearTimer s1.pingTimeoutId s1
  match s2.socket with
  | none => { s2 with trace := .fault :: s2.trace }
  | some k =>
    let s3 := { s2 with listeners := setListeners k allOff s2.listeners }
    let s4 := { s3 with trace := .socketClose k :: s3.trace }
    respondToCallbacks .CLOSE s4

/-- Embeds `sendPing()`: schedule the ping closure after `pingInterval`, storing
the timer id in `this.pingTimeout`. -/
def sendPing (s : RWS) : RWS :=
  let i := s.nextTimerId
  { s with nextTimerId := i + 1,
           timers := s.timers ++ [⟨i, s.time + s.opts.pingInterval, .pingFire⟩],
           pingTimeoutId := some i }

/-- The ping timer closure: `this.send(pingMessage)`, then schedule the
pong-timeout closure after `pongTimeout`, storing its id in
`this.pongTimeout`.  With no socket handle `send` throws and the
pong-timeout is never scheduled. -/
def pingFireAct (s : RWS) : RWS :=
  match s.socket with
  | none => { s with trace := .fault :: s.trace }
  | some _ =>
    let s1 := send s.opts.pingMessage s
    let i := s1.nextTimerId
    { s1 with nextTimerId := i + 1,
              timers := s1.timers ++ [⟨i, s1.time + s1.opts.pongTimeout, .pongFire⟩],
              pongTimeoutId := some i }

/-- Embeds `pongTimedOut()`: `this.socket.close()` (a `fault` with no handle). -/
def pongTimedOut (s : RWS) : RWS :=
  match s.socket with
  | none => { s with trace := .fault :: s.trace }
  | some k => { s with trace := .socketClose k :: s.trace }

/-- Embeds `pongReceived()`: clear the pong-timeout timer, emit `PONG`, and
schedule the next ping (`sendPing`). -/
def pongReceived (s : RWS) : RWS :=
  let s1 := clearTimer s.pongTimeoutId s
  let s2 := respondToCallbacks .PONG s1
  sendPing s2

/-- The pong-recognition guard of `onMessage`:
`this.options.pingEnabled && event.data === this.options.pongMessage`. -/
def recognisedAsPong (o : Options) (d : Payload) : Bool :=
  o.pingEnabled && jsStrictEq d o.pongMessage

/-- Embeds `onMessage(event)`: when `pingEnabled` and `event.data === pongMessage`
(strict equality), consume the frame via `pongReceived`; otherwise deliver
a `MESSAGE` emission carrying the wire payload (inbound JSON decoding is
the abstracted external codec). -/
def onMessage (data : Payload) (s : RWS) : RWS :=
  if recognisedAsPong s.opts data then
    pongReceived s
  else
    { s with trace := .emitMessage data :: s.trace }

/-- Embeds `onOpen()`: emit `CONNECTION`; when `pingEnabled`, start the keepalive. -/
def onOpen (s : RWS) : RWS :=
  let s1 := respondToCallbacks .CONNECTION s
  if s1.opts.pingEnabled then sendPing s1 else s1

/-- Embeds `onClose(event)`: emit `CLOSE`, clear the ping and pong timers, and
schedule the reconnect closure after `reconnectInterval`.  The reconnect
timer id is dropped (stored in no field), and nothing records that a
reconnect is already pending. -/
def onClose (s : RWS) : RWS :=
  let s1 := respondToCallbacks .CLOSE s
  let s2 := clearTimer s1.pingTimeoutId s1
  let s3 := clearTimer s2.pongTimeoutId s2
  let i := s3.nextTimerId
  { s3 with nextTimerId := i + 1,
            timers := s3.timers ++ [⟨i, s3.time + s3.opts.reconnectInterval, .reconnectFire⟩] }

/-- Embeds `onError()`: emit `ERROR`; when `reconnectOnError`, run the `onClose`
body (the same handler, with no close event). -/
def onError (s : RWS) : RWS :=
  let s1 := respondToCallbacks .ERROR s
  if s1.opts.reconnectOnError then onClose s1 else s1

/-- The reconnect timer closure: `this.socket = this.connect()`. -/
def reconnectAct (s : RWS) : RWS :=
  let p := connect s
  { p.1 with socket := some p.2 }

/-- The transport delivers `open` on socket `k`: runs `onOpen` when that
socket still has the handler attached (also for a superseded socket). -/
def fireOpen (k : Nat) (s : RWS) : RWS :=
  if (getListeners k s.listeners).openEv then onOpen s else s

/-- The transport delivers a `message` on socket `k`. -/
def fireMessage (k : Nat) (d : Payload) (s : RWS) : RWS :=
  if (getListeners k s.listeners).messageEv then onMessage d s else s

/-- The transport delivers `close` on socket `k`. -/
def fireClose (k : Nat) (s : RWS) : RWS :=
  if (getListeners k s.listeners).closeEv then onClose s else s

/-- The transport delivers `error` on socket `k`. -/
def fireError (k : Nat) (s : RWS) : RWS :=
  if (getListeners k s.listeners).errorEv then onError s else s

/-- Timer `a` fires before timer `b`: earlier due time, ties broken by
scheduling order (ids increase with creation). -/
def earlier (a b : Timer) : Bool :=
  a.due < b.due || (a.due == b.due && a.id < b.id)

/-- The next timer to fire within the deadline, if any. -/
def pickTimer (deadline : Nat) : List Timer → Option Timer
  | [] => none
  | t :: ts =>
    match pickTimer deadline ts with
    | none => if t.due ≤ deadline then some t else none
    | some u =>
      if t.due ≤ deadline && earlier t u then some t else some u

/-- Run a fired timer's closure. -/
def runTimer (t : Timer) (s : RWS) : RWS :=
  match t.act with
  | .pingFire => pingFireAct s
  | .pongFire => pongTimedOut s
  | .reconnectFire => reconnectAct s

/-- Advance the test clock by `delta`: repeatedly fire the earliest pending
timer due within the window (timers scheduled by a firing closure are
eligible too, as with the test clock), setting the clock to each firing
time, and finish at the deadline.  `fuel` bounds the cascade. -/
def tick : Nat → Nat → RWS → RWS
  | 0, _, s => s
  | fuel + 1, delta, s =>
    let deadline := s.time + delta
    match pickTimer deadline s.timers with
    | none => { s with time := deadline }
    | some t =>
      let s1 := runTimer t { s with time := t.due, timers := s.timers.filter (fun u => u.id != t.id) }
      tick fuel (deadline - t.due) s1

/-- Number of factory invocations recorded in a trace. -/
def factoryCount (tr : List Effect) : Nat :=
  tr.countP (fun e => match e with | .factoryCall _ _ => true | _ => false)

/-- Number of emissions of one event kind recorded in a trace. -/
def emitCount (ev : WsEvent) (tr : List Effect) : Nat :=
  tr.countP (fun e => match e with | .emitEv v => v == ev | _ => false)

/-- Number of `MESSAGE` deliveries recorded in a trace. -/
def messageCount (tr : List Effect) : Nat :=
  tr.countP (fun e => match e with | .emitMessage _ => true | _ => false)

/-- Number of transport `send` calls of one payload recorded in a trace. -/
def sendCount (d : Payload) (tr : List Effect) : Nat :=
  tr.countP (fun e => match e with | .socketSend _ x => x == d | _ => false)

/-- Number of transport `close` calls recorded in a trace. -/
def closeCount (tr : List Effect) : Nat :=
  tr.countP (fun e => match e with | .socketClose _ => true | _ => false)

/-- No reconnect closure among the pending timers. -/
def noReconnectPending (ts : List Timer) : Prop :=
  ∀ t ∈ ts, t.act ≠ TAct.reconnectFire

instance (ts : List Timer) : Decidable (noReconnectPending ts) := by
  unfold noReconnectPending; infer_instance

end ResilientWebSocket

namespace CallbackRegistry

theorem regGet_regSet_self (R : Registry) (e : String) (l : List Cb) :
    regGet (regSet R e l) e = some l := by
  induction R with
  | nil => simp [regGet, regSet]
  | cons p R ih =>
    obtain ⟨e', l'⟩ := p
    by_cases h : (e' == e) = true
    · simp [regGet, regSet, h]
    · simp [regGet, regSet, h, ih]

theorem regSet_regSet (R : Registry) (e : String) (l l' : List Cb) :
    regSet (regSet R e l) e l' = regSet R e l' := by
  induction R with
  | nil => simp [regSet]
  | cons p R ih =>
    obtain ⟨e0, l0⟩ := p
    by_cases h : (e0 == e) = true
    · simp [regSet, h]
    · simp [regSet, h, ih]

theorem regSet_regGet_self (R : Registry) (e : String) (l : List Cb)
    (h : regGet R e = some l) : regSet R e l = R := by
  induction R with
  | nil => simp [regGet] at h
  | cons p R ih =>
    obtain ⟨e', l'⟩ := p
    by_cases he : (e' == e) = true
    · simp [regGet, he] at h
      simp [regSet, he, h]
    · simp [regGet, he] at h
      simp [regSet, he, ih h]

theorem contains_setAdd_self (l : List Cb) (c : Cb) :
    (setAdd l c).contains c = true := by
  unfold setAdd
  by_cases h : l.contains c = true
  · rw [if_pos h]; exact h
  · rw [if_neg h]; simp

theorem setAdd_idem (l : List Cb) (c : Cb) :
    setAdd (setAdd l c) c = setAdd l c := by
  unfold setAdd
  by_cases h : l.contains c = true
  · have hm : c ∈ l := List.elem_iff.mp h
    simp [h, hm]
  · rw [if_neg h]
    simp

theorem regList_onCb (R : Registry) (e : String) (c : Cb) :
    regList (onCb R e c) e = setAdd (regList R e) c := by
  unfold onCb
  cases hg : regGet R e with
  | none => simp [regList, regGet_regSet_self, hg, setAdd]
  | some l => simp [regList, regGet_regSet_self, hg]

theorem count_setAdd_self (l : List Cb) (c : Cb) (hl : l.Nodup) :
    (setAdd l c).count c = 1 := by
  unfold setAdd
  by_cases h : l.contains c = true
  · rw [if_pos h]
    exact List.count_eq_one_of_mem hl (List.elem_iff.mp h)
  · rw [if_neg h, List.count_append]
    have h0 : l.count c = 0 :=
      List.count_eq_zero.mpr (fun hc => h (List.elem_iff.mpr hc))
    simp [h0]

end CallbackRegistry

namespace CallbackRegistry

theorem filterMap_id_map_some (l : List Cb) :
    (l.map some).filterMap id = l := by
  induction l with
  | nil => rfl
  | cons a l ih => simp [ih]

theorem emitLoop_nomut (e : String) :
    ∀ fuel st,
      (emitLoop (fun _ => []) e fuel st).reg = st.reg ∧
      (emitLoop (fun _ => []) e fuel st).entries = st.entries ∧
      (st.entries.length ≤ fuel + st.idx →
        (emitLoop (fun _ => []) e fuel st).trace =
          st.trace ++ (st.entries.drop st.idx).filterMap id) := by
  intro fuel
  induction fuel with
  | zero =>
    intro st
    refine ⟨rfl, rfl, ?_⟩
    intro h
    rw [List.drop_eq_nil_of_le (by omega)]
    simp [emitLoop]
  | succ n ih =>
    intro st
    unfold emitLoop
    by_cases h : st.idx < st.entries.length
    · rw [dif_pos h]
      have hdrop := List.drop_eq_get_cons (l := st.entries) h
      cases hg : st.entries.get ⟨st.idx, h⟩ with
      | none =>
        dsimp only
        obtain ⟨h1, h2, h3⟩ := ih { st with idx := st.idx + 1 }
        refine ⟨h1, h2, ?_⟩
        intro hlen
        rw [h3 (by dsimp only; omega)]
        rw [hdrop, hg]
        simp
      | some c =>
        dsimp only [applyOps, List.foldl]
        obtain ⟨h1, h2, h3⟩ := ih { st with trace := st.trace ++ [c], idx := st.idx + 1 }
        refine ⟨h1, h2, ?_⟩
        intro hlen
        rw [h3 (by dsimp only; omega)]
        rw [hdrop, hg]
        simp
    · rw [dif_neg h]
      refine ⟨rfl, rfl, ?_⟩
      intro hlen
      rw [List.drop_eq_nil_of_le (by omega)]
      simp

theorem respondToCallbacks_nomut (R : Registry) (e : String) (fuel : Nat)
    (h : (regList R e).length ≤ fuel) :
    respondToCallbacks (fun _ => []) R e fuel = (R, regList R e) := by
  unfold respondToCallbacks
  cases hg : regGet R e with
  | none => simp [regList, hg]
  | some l =>
    have hl : regList R e = l := by simp [regList, hg]
    rw [hl] at h
    dsimp only
    obtain ⟨h1, h2, h3⟩ := emitLoop_nomut e fuel (EmitSt.mk R (l.map some) 0 [])
    have hlen : (EmitSt.mk R (l.map some) 0 []).entries.length ≤
        fuel + (EmitSt.mk R (l.map some) 0 []).idx := by
      dsimp only
      rw [List.length_map]
      omega
    have htr := h3 hlen
    dsimp only at h1 h2 htr
    rw [List.drop_zero, filterMap_id_map_some, List.nil_append] at htr
    rw [hl, h1, h2, htr, filterMap_id_map_some, regSet_regGet_self R e l hg]

end CallbackRegistry

namespace CallbackRegistry

theorem onCb_eq (R : Registry) (e : String) (c : Cb) :
    onCb R e c = regSet R e (setAdd (regList R e) c) := by
  unfold onCb
  cases hg : regGet R e with
  | none => simp [regList, hg, setAdd]
  | some l => simp [regList, hg]

/-- The re-entrant program used to refute the snapshot claim: callback `0`
registers callback `1` for the same event while the emission runs. -/
def snapshotProbe : Cb → List RegOp :=
  fun c => if c == 0 then [RegOp.add "message" 1] else []

/-- C5 counterexample: with only callback `0` registered for `"message"`
at the moment the emission starts, and `0` re-entrantly registering `1`
for the same event, the source's `Set.forEach` live iteration invokes
`[0, 1]` — callback `1`, not registered when the emission started, is
invoked by the in-progress emission, so the emission is not over a
snapshot taken at emit time. -/
theorem c5_snapshot_refuted :
    (respondToCallbacks snapshotProbe [("message", [0])] "message" 5).2 = [0, 1] ∧
    regList [("message", [0])] "message" = [0] := by decide

/-- C5 (amended): `respondToCallbacks` iterates the live set, not a
snapshot.  When no invoked callback mutates the registrations, it invokes
exactly the callbacks registered at emit time, in registration order, and
leaves the registry unchanged (fuel at least the registered count). -/
theorem c5_emit_registered_in_order (R : Registry) (e : String) (fuel : Nat)
    (h : (regList R e).length ≤ fuel) :
    respondToCallbacks (fun _ => []) R e fuel = (R, regList R e) :=
  respondToCallbacks_nomut R e fuel h

theorem c5_emit_registered_in_order_witness :
    respondToCallbacks (fun _ => []) [("message", [3, 7])] "message" 2 =
      ([("message", [3, 7])], regList [("message", [3, 7])] "message") :=
  c5_emit_registered_in_order [("message", [3, 7])] "message" 2 (by decide)

/-- C6: registration is idempotent per (event, callback) pair — `on` twice
equals `on` once; `off` of an unregistered callback is a no-op; and after
a duplicate registration the callback still occurs exactly once in the set
an emission iterates (so it fires exactly once per emission). -/
theorem c6_registration_idempotent (R : Registry) (e : String) (c : Cb) :
    onCb (onCb R e c) e c = onCb R e c ∧
    (c ∉ regList R e → off R e c = R) ∧
    ((regList R e).Nodup → (regList (onCb (onCb R e c) e c) e).count c = 1) := by
  refine ⟨?_, ?_, ?_⟩
  · rw [onCb_eq (onCb R e c) e c, regList_onCb, setAdd_idem, onCb_eq R e c,
      regSet_regSet, ← onCb_eq]
  · intro hc
    cases hg : regGet R e with
    | none => simp only [off, hg]
    | some l =>
      have hcl : c ∉ l := by
        rw [regList, hg] at hc
        simpa using hc
      simp only [off, hg]
      rw [List.erase_of_not_mem hcl, regSet_regGet_self R e l hg]
  · intro hnd
    rw [regList_onCb, regList_onCb, setAdd_idem]
    exact count_setAdd_self _ c hnd

theorem c6_registration_idempotent_witness :
    onCb (onCb [("a", [2])] "a" 5) "a" 5 = onCb [("a", [2])] "a" 5 ∧
    off [("a", [2])] "a" 5 = [("a", [2])] ∧
    (regList (onCb (onCb [("a", [2])] "a" 5) "a" 5) "a").count 5 = 1 := by
  obtain ⟨h1, h2, h3⟩ := c6_registration_idempotent [("a", [2])] "a" 5
  exact ⟨h1, h2 (by decide), h3 (by decide)⟩

end CallbackRegistry

namespace ResilientWebSocket

/-- Options of the spec §8 keepalive scenario:
`pingEnabled=true, pingInterval=50, pongTimeout=50`. -/
def pingOpts : Options :=
  { defaultOptions with pingEnabled := true, pingInterval := 50, pongTimeout := 50 }

/-- The wrapper constructed with the keepalive options (`autoConnect` on,
so socket `0` is created at construction). -/
def pingStart : RWS := mkRWS "ws://localhost" pingOpts

/-- State after the transport delivers `open` on socket `0`. -/
def pingOpened : RWS := fireOpen 0 pingStart

/-- The wrapper constructed with the default options. -/
def dfltStart : RWS := mkRWS "ws://localhost" defaultOptions

/-- Options with `autoConnect` off. -/
def noConnectOpts : Options := { defaultOptions with autoConnect := false }

/-- A wrapper constructed with `autoConnect=false` and `connect()` never
called: no connection handle was ever assigned. -/
def unconnected : RWS := mkRWS "ws://localhost" noConnectOpts

/-- Options with a structured (object) `pongMessage`, reference `0`. -/
def structuredPongOpts : Options :=
  { defaultOptions with pingEnabled := true, pongMessage := Payload.structured 0 }

/-- C8: with `pingEnabled=true, pingInterval=50, pongTimeout=50`, after the
transport's `open`: advancing time by 60 sends exactly one ping through the
transport (and closes nothing); with no pong, advancing a further 60 calls
the transport's `close` exactly once (and sends no further ping). -/
theorem c8_keepalive_ping_then_timeout_close :
    sendCount (Payload.text "PING") (tick 10 60 pingOpened).trace = 1 ∧
    closeCount (tick 10 60 pingOpened).trace = 0 ∧
    sendCount (Payload.text "PING") (tick 10 60 (tick 10 60 pingOpened)).trace = 1 ∧
    closeCount (tick 10 60 (tick 10 60 pingOpened)).trace = 1 := by decide

/-- C1 counterexample: the transport closes non-explicitly at time 0
(scheduling a reconnect after `reconnectInterval`), the caller then invokes
`close()`, and time advances past `reconnectInterval`: the pending
reconnect timer is not cancelled by `close()` and invokes the factory a
second time, so a factory invocation does occur after the explicit close. -/
theorem c1_pending_reconnect_survives_close :
    factoryCount (close (fireClose 0 dfltStart)).trace = 1 ∧
    factoryCount (tick 10 1100 (close (fireClose 0 dfltStart))).trace = 2 := by decide

/-- C2 failing run: with `reconnectOnError=true` (default), the transport
fires `error` and then a genuine `close` on the same socket `0`: the error
path runs the `onClose` body and the close event runs it again, so two
reconnect timers are pending, and after the delay the factory has been
invoked twice more (three calls in total), not once. -/
theorem c2_error_then_close_double_reconnect :
    (fireClose 0 (fireError 0 dfltStart)).timers.map Timer.act =
      [TAct.reconnectFire, TAct.reconnectFire] ∧
    factoryCount (fireClose 0 (fireError 0 dfltStart)).trace = 1 ∧
    factoryCount (tick 10 1200 (fireClose 0 (fireError 0 dfltStart))).trace = 3 := by decide

/-- C3 counterexample: calling `close()` twice on the constructed wrapper
emits a second `CLOSE` event to subscribers and calls the transport's
close capability a second time, so the second call has additional
observable effect. -/
theorem c3_second_close_reemits :
    emitCount WsEvent.CLOSE (close dfltStart).trace = 1 ∧
    closeCount (close dfltStart).trace = 1 ∧
    emitCount WsEvent.CLOSE (close (close dfltStart)).trace = 2 ∧
    closeCount (close (close dfltStart)).trace = 2 := by decide

/-- C4 counterexample: constructed with `autoConnect=false` and `connect()`
never called, `send` dereferences the absent handle and aborts with a
thrown `TypeError` (the `fault` effect) — an unhandled failure; no
`NotConnected` condition exists in the code and no `ERROR` event is
reported. -/
theorem c4_send_unconnected_faults :
    send (Payload.text "hi") unconnected = { unconnected with trace := [Effect.fault] } ∧
    emitCount WsEvent.ERROR (send (Payload.text "hi") unconnected).trace = 0 := by decide

/-- C4 (amended): `send` with no open connection handle is an unhandled
failure — the call faults on the absent handle (observable, so not a
silent drop), and no reported `NotConnected` condition or event exists. -/
theorem c4_send_no_handle_is_unhandled_fault (s : RWS) (p : Payload)
    (h : s.socket = none) :
    send p s = { s with trace := Effect.fault :: s.trace } := by
  simp only [send, h]

theorem c4_send_no_handle_is_unhandled_fault_witness :
    send (Payload.text "hi") unconnected =
      { unconnected with trace := Effect.fault :: unconnected.trace } :=
  c4_send_no_handle_is_unhandled_fault unconnected (Payload.text "hi") (by decide)

/-- C7 counterexample: with a structured `pongMessage` (object reference 0)
and an inbound structured payload with a different reference 1 but equal
content (heap giving both content 7), the payloads are value-equal on
their type, yet the `onMessage` guard — `===`, reference identity on
objects — does not recognise the inbound payload as a pong. -/
theorem c7_structured_content_equality_not_recognised :
    payloadValueEq (fun _ => 7) (Payload.structured 1) structuredPongOpts.pongMessage = true ∧
    recognisedAsPong structuredPongOpts (Payload.structured 1) = false := by decide

/-- C7 (amended): pong recognition uses JavaScript strict equality, never a
prefix or pattern match: a text payload is recognised exactly when it is
string-equal to a text `pongMessage`, and a structured payload exactly
when it is the very same object reference as a structured `pongMessage` —
content equality of distinct structured payloads does not suffice. -/
theorem c7_recognition_is_strict_equality (o : Options) (d : Payload)
    (h : o.pingEnabled = true) :
    recognisedAsPong o d = true ↔
      ((∃ s, d = Payload.text s ∧ o.pongMessage = Payload.text s) ∨
       (∃ r, d = Payload.structured r ∧ o.pongMessage = Payload.structured r)) := by
  cases d with
  | text s =>
    cases ho : o.pongMessage with
    | text t =>
      simp [recognisedAsPong, jsStrictEq, h, ho]
      exact eq_comm
    | structured q => simp [recognisedAsPong, jsStrictEq, h, ho]
  | structured r =>
    cases ho : o.pongMessage with
    | text t => simp [recognisedAsPong, jsStrictEq, h, ho]
    | structured q =>
      simp [recognisedAsPong, jsStrictEq, h, ho]
      exact eq_comm

theorem c7_recognition_is_strict_equality_witness :
    recognisedAsPong structuredPongOpts (Payload.structured 0) = true ↔
      ((∃ s, Payload.structured 0 = Payload.text s ∧
          structuredPongOpts.pongMessage = Payload.text s) ∨
       (∃ r, Payload.structured 0 = Payload.structured r ∧
          structuredPongOpts.pongMessage = Payload.structured r)) :=
  c7_recognition_is_strict_equality structuredPongOpts (Payload.structured 0) (by decide)

end ResilientWebSocket

namespace ResilientWebSocket

theorem clearT_subset (oi : Option Nat) (ts : List Timer) (t : Timer)
    (h : t ∈ clearT oi ts) : t ∈ ts := by
  cases oi with
  | none => exact h
  | some i => exact List.mem_of_mem_filter h

theorem pickTimer_mem (deadline : Nat) :
    ∀ (ts : List Timer) (t : Timer), pickTimer deadline ts = some t → t ∈ ts := by
  intro ts
  induction ts with
  | nil => intro t h; simp [pickTimer] at h
  | cons u ts ih =>
    intro t h
    cases hp : pickTimer deadline ts with
    | none =>
      simp only [pickTimer, hp] at h
      by_cases hd : u.due ≤ deadline
      · rw [if_pos hd] at h
        cases h
        exact List.mem_cons_self u ts
      · rw [if_neg hd] at h
        simp at h
    | some v =>
      simp only [pickTimer, hp] at h
      by_cases hc : (u.due ≤ deadline && earlier u v) = true
      · rw [if_pos hc] at h
        cases h
        exact List.mem_cons_self u ts
      · rw [if_neg hc] at h
        cases h
        exact List.mem_cons_of_mem u (ih t hp)

theorem pickTimer_none (deadline : Nat) (ts : List Timer)
    (h : ∀ t ∈ ts, deadline < t.due) : pickTimer deadline ts = none := by
  induction ts with
  | nil => rfl
  | cons u ts ih =>
    have h1 : ¬ u.due ≤ deadline := by
      have := h u (List.mem_cons_self u ts)
      omega
    simp only [pickTimer, ih (fun v hv => h v (List.mem_cons_of_mem u hv))]
    simp [h1]

theorem tick_no_due_trace (fuel delta : Nat) (s : RWS)
    (h : ∀ t ∈ s.timers, s.time + delta < t.due) :
    (tick fuel delta s).trace = s.trace := by
  cases fuel with
  | zero => rfl
  | succ n => simp only [tick, pickTimer_none (s.time + delta) s.timers h]

theorem runTimer_no_reconnect (t : Timer) (s : RWS)
    (hact : t.act ≠ TAct.reconnectFire) :
    factoryCount (runTimer t s).trace = factoryCount s.trace ∧
    (noReconnectPending s.timers → noReconnectPending (runTimer t s).timers) := by
  cases ha : t.act with
  | pingFire =>
    simp only [runTimer, ha, pingFireAct]
    cases hs : s.socket with
    | none =>
      refine ⟨?_, fun h => h⟩
      simp [factoryCount, List.countP_cons]
    | some k =>
      constructor
      · simp [factoryCount, send, hs, List.countP_cons]
      · intro h u hu
        simp only [send, hs] at hu
        rcases List.mem_append.mp hu with h1 | h1
        · exact h u h1
        · simp at h1
          rw [h1]
          intro hc
          cases hc
  | pongFire =>
    simp only [runTimer, ha, pongTimedOut]
    cases hs : s.socket with
    | none =>
      refine ⟨?_, fun h => h⟩
      simp [factoryCount, List.countP_cons]
    | some k =>
      refine ⟨?_, fun h => h⟩
      simp [factoryCount, List.countP_cons]
  | reconnectFire => exact absurd ha hact

theorem tick_no_reconnect (fuel : Nat) :
    ∀ (delta : Nat) (s : RWS), noReconnectPending s.timers →
      factoryCount (tick fuel delta s).trace = factoryCount s.trace ∧
      noReconnectPending (tick fuel delta s).timers := by
  induction fuel with
  | zero => intro delta s h; exact ⟨rfl, h⟩
  | succ n ih =>
    intro delta s h
    cases hp : pickTimer (s.time + delta) s.timers with
    | none =>
      simp only [tick, hp]
      exact ⟨trivial, h⟩
    | some t =>
      simp only [tick, hp]
      have hmem := pickTimer_mem (s.time + delta) s.timers t hp
      have hact : t.act ≠ TAct.reconnectFire := h t hmem
      have hpre : noReconnectPending (s.timers.filter (fun u => u.id != t.id)) := by
        intro u hu
        exact h u (List.mem_of_mem_filter hu)
      obtain ⟨hf, hn⟩ := runTimer_no_reconnect t
        { s with time := t.due, timers := s.timers.filter (fun u => u.id != t.id) } hact
      obtain ⟨ihf, ihn⟩ := ih (s.time + delta - t.due) _ (hn hpre)
      exact ⟨ihf.trans hf, ihn⟩

theorem close_factory (s : RWS) :
    factoryCount (close s).trace = factoryCount s.trace ∧
    (noReconnectPending s.timers → noReconnectPending (close s).timers) := by
  unfold close clearTimer
  cases hs : s.socket with
  | none =>
    simp only [hs]
    constructor
    · simp [factoryCount, List.countP_cons]
    · intro h u hu
      exact h u (clearT_subset _ _ u (clearT_subset _ _ u hu))
  | some k =>
    simp only [hs, respondToCallbacks]
    constructor
    · simp [factoryCount, List.countP_cons]
    · intro h u hu
      exact h u (clearT_subset _ _ u (clearT_subset _ _ u hu))

/-- C1 (amended): after the caller invokes `close()`, advancing time any
amount causes no further factory invocation, provided no reconnect delay
(scheduled by an earlier non-explicit close) is still pending at the
moment `close()` is called — and no reconnect delay becomes pending
either, so the guarantee is stable under further time advance.  (`close()`
does not cancel a pending reconnect timer; when one is pending it still
fires and invokes the factory, per the counterexample.) -/
theorem c1_close_then_time_no_factory_call (s : RWS) (fuel delta : Nat)
    (h : noReconnectPending s.timers) :
    factoryCount (tick fuel delta (close s)).trace = factoryCount s.trace ∧
    noReconnectPending (tick fuel delta (close s)).timers := by
  obtain ⟨hf, hn⟩ := close_factory s
  obtain ⟨tf, tn⟩ := tick_no_reconnect fuel delta (close s) (hn h)
  exact ⟨tf.trans hf, tn⟩

theorem c1_close_then_time_no_factory_call_witness :
    factoryCount (tick 3 2000 (close dfltStart)).trace = factoryCount dfltStart.trace ∧
    noReconnectPending (tick 3 2000 (close dfltStart)).timers :=
  c1_close_then_time_no_factory_call dfltStart 3 2000 (by decide)

end ResilientWebSocket

namespace ResilientWebSocket

theorem clearT_pair_idem (a b : Option Nat) (ts : List Timer) :
    clearT a (clearT b (clearT a (clearT b ts))) = clearT a (clearT b ts) := by
  cases a with
  | none =>
    cases b with
    | none => rfl
    | some j =>
      simp only [clearT, List.filter_filter]
      apply List.filter_congr
      intro t _
      cases h : (t.id != j) <;> rfl
  | some i =>
    cases b with
    | none =>
      simp only [clearT, List.filter_filter]
      apply List.filter_congr
      intro t _
      cases h : (t.id != i) <;> rfl
    | some j =>
      simp only [clearT, List.filter_filter]
      apply List.filter_congr
      intro t _
      cases h1 : (t.id != i) <;> cases h2 : (t.id != j) <;> rfl

theorem setListeners_idem (k : Nat) (v : Listeners) (L : List (Nat × Listeners)) :
    setListeners k v (setListeners k v L) = setListeners k v L := by
  induction L with
  | nil => simp [setListeners]
  | cons p L ih =>
    obtain ⟨k', v'⟩ := p
    by_cases h : (k' == k) = true
    · simp [setListeners, h]
    · simp [setListeners, h, ih]

theorem close_some_eq (u : RWS) (k : Nat) (hu : u.socket = some k) :
    close u = { u with
      timers := clearT u.pingTimeoutId (clearT u.pongTimeoutId u.timers),
      listeners := setListeners k allOff u.listeners,
      trace := Effect.emitEv WsEvent.CLOSE :: Effect.socketClose k :: u.trace } := by
  simp only [close, clearTimer, respondToCallbacks, hu]

/-- C3 (amended): `close()` is not idempotent — a second call emits one
additional `CLOSE` event to subscribers and calls the transport's close
capability one additional time; apart from those two trace effects the
second call changes nothing (the timer clears and listener removals are
no-ops the second time). -/
theorem c3_second_close_exact_effect (s : RWS) (k : Nat) (h : s.socket = some k) :
    close (close s) =
      { (close s) with trace :=
          Effect.emitEv WsEvent.CLOSE :: Effect.socketClose k :: (close s).trace } := by
  have hcs := close_some_eq s k h
  have h2 : (close s).socket = some k := by
    rw [hcs]
    exact h
  rw [close_some_eq (close s) k h2, hcs]
  simp only [clearT_pair_idem, setListeners_idem]

theorem c3_second_close_exact_effect_witness :
    close (close dfltStart) =
      { (close dfltStart) with
        trace := Effect.emitEv WsEvent.CLOSE ::
          Effect.socketClose 0 :: (close dfltStart).trace } :=
  c3_second_close_exact_effect dfltStart 0 (by decide)

end ResilientWebSocket

namespace ResilientWebSocket

/-- The spec §8 keepalive scenario advanced to time 60: the ping has been
sent and the sole pending timer is the pong timeout (due at 100). -/
def awaitingPong : RWS := tick 10 60 pingOpened

/-- C10: with `pingEnabled`, every inbound message whose payload is
`===`-equal to the configured `pongMessage` is consumed by the keepalive
path and never delivered to `MESSAGE` subscribers — with no condition that
a ping is outstanding: `onMessage` routes the frame to `pongReceived`,
which clears the pong timer (a no-op when none is pending), emits `PONG`,
and schedules a further ping after `pingInterval`; the trace gains exactly
the `PONG` emission and no `MESSAGE` delivery. -/
theorem c10_pong_equal_message_consumed (s : RWS) (k : Nat) (d : Payload)
    (hl : (getListeners k s.listeners).messageEv = true)
    (hp : s.opts.pingEnabled = true)
    (hd : jsStrictEq d s.opts.pongMessage = true) :
    fireMessage k d s = pongReceived s ∧
    (fireMessage k d s).trace = Effect.emitEv WsEvent.PONG :: s.trace ∧
    (fireMessage k d s).timers =
      clearT s.pongTimeoutId s.timers ++
        [⟨s.nextTimerId, s.time + s.opts.pingInterval, TAct.pingFire⟩] := by
  have hr : recognisedAsPong s.opts d = true := by
    simp [recognisedAsPong, hp, hd]
  have h1 : fireMessage k d s = pongReceived s := by
    simp only [fireMessage, hl, if_true, onMessage, hr]
  refine ⟨h1, ?_, ?_⟩ <;> rw [h1] <;> rfl

theorem c10_pong_equal_message_consumed_witness :
    fireMessage 0 (Payload.text "PONG") pingOpened = pongReceived pingOpened ∧
    (fireMessage 0 (Payload.text "PONG") pingOpened).trace =
      Effect.emitEv WsEvent.PONG :: pingOpened.trace ∧
    (fireMessage 0 (Payload.text "PONG") pingOpened).timers =
      clearT pingOpened.pongTimeoutId pingOpened.timers ++
        [⟨pingOpened.nextTimerId, pingOpened.time + pingOpened.opts.pingInterval,
          TAct.pingFire⟩] :=
  c10_pong_equal_message_consumed pingOpened 0 (Payload.text "PONG")
    (by decide) (by decide) (by decide)

/-- C9: a ping has been sent and the pong timeout is still pending (the
sole pending timer, so the pong arrives within `pongTimeout`); a message
`===`-equal to `pongMessage` then: emits `PONG` and adds no transport
close (the trace gains exactly the `PONG` emission), cancels the pong
timer and schedules the next ping a full `pingInterval` after arrival
(the sole remaining timer), and advancing time by any `delta` smaller
than `pingInterval` produces no further effect (in particular no ping
send and no close). -/
theorem c9_pong_in_time_no_close_next_ping_full_interval
    (s : RWS) (k : Nat) (d : Payload) (i dpong fuel delta : Nat)
    (hl : (getListeners k s.listeners).messageEv = true)
    (hp : s.opts.pingEnabled = true)
    (hd : jsStrictEq d s.opts.pongMessage = true)
    (hid : s.pongTimeoutId = some i)
    (ht : s.timers = [⟨i, dpong, TAct.pongFire⟩])
    (hdelta : delta < s.opts.pingInterval) :
    (fireMessage k d s).trace = Effect.emitEv WsEvent.PONG :: s.trace ∧
    (fireMessage k d s).timers =
      [⟨s.nextTimerId, s.time + s.opts.pingInterval, TAct.pingFire⟩] ∧
    (tick fuel delta (fireMessage k d s)).trace = (fireMessage k d s).trace := by
  have hr : recognisedAsPong s.opts d = true := by
    simp [recognisedAsPong, hp, hd]
  have h1 : fireMessage k d s = pongReceived s := by
    simp only [fireMessage, hl, if_true, onMessage, hr]
  have htimers : (fireMessage k d s).timers =
      [⟨s.nextTimerId, s.time + s.opts.pingInterval, TAct.pingFire⟩] := by
    rw [h1]
    simp [pongReceived, clearTimer, clearT, respondToCallbacks, sendPing, hid, ht]
  refine ⟨by rw [h1]; rfl, htimers, ?_⟩
  apply tick_no_due_trace
  intro t htm
  rw [htimers] at htm
  have htime : (fireMessage k d s).time = s.time := by rw [h1]; rfl
  rw [htime]
  simp at htm
  rw [htm]
  simpa using hdelta

theorem c9_pong_in_time_no_close_next_ping_full_interval_witness :
    (fireMessage 0 (Payload.text "PONG") awaitingPong).trace =
      Effect.emitEv WsEvent.PONG :: awaitingPong.trace ∧
    (fireMessage 0 (Payload.text "PONG") awaitingPong).timers =
      [⟨awaitingPong.nextTimerId, awaitingPong.time + awaitingPong.opts.pingInterval,
        TAct.pingFire⟩] ∧
    (tick 5 49 (fireMessage 0 (Payload.text "PONG") awaitingPong)).trace =
      (fireMessage 0 (Payload.text "PONG") awaitingPong).trace :=
  c9_pong_in_time_no_close_next_ping_full_interval awaitingPong 0
    (Payload.text "PONG") 1 100 5 49
    (by decide) (by decide) (by decide) (by decide) (by decide) (by decide)

end ResilientWebSocket
